import Mathlib

/-!
Shallow embedding of the emtm-verify verification pipeline
(src/src/verifier.rs): request signing (`get_sign_hash`), parameter-set
construction and form building inside `Verifier::verify`, percent-escaping
of the base64 image payload, OCR response validation, nonce generation,
and the HTTP response handling of `api_request`.

Machine integers are modelled as `Nat` with explicit `% 2^w` where
overflow matters; strings are Lean `String`s with explicit UTF-8 byte
encoding where the source hashes bytes.
-/

namespace EmtmVerify

/-! ## Bytes and hex -/

/-- UTF-8 encoding of a single Unicode code point, as a list of bytes.
Models how Rust `String`/`&str` data is laid out when hashed. -/
def utf8EncodeCodePoint (n : Nat) : List Nat :=
  if n < 0x80 then [n]
  else if n < 0x800 then [0xC0 + n / 64, 0x80 + n % 64]
  else if n < 0x10000 then
    [0xE0 + n / 4096, 0x80 + (n / 64) % 64, 0x80 + n % 64]
  else
    [0xF0 + n / 262144, 0x80 + (n / 4096) % 64, 0x80 + (n / 64) % 64,
      0x80 + n % 64]

/-- The UTF-8 bytes of a string (Rust `str::as_bytes`). -/
def strBytes (s : String) : List Nat :=
  s.data.flatMap (fun c => utf8EncodeCodePoint c.toNat)

/-- Lower-case hex digit for a value below 16. -/
def hexDigit (n : Nat) : Char :=
  if n < 10 then Char.ofNat (48 + n) else Char.ofNat (87 + n)

/-- Lower-case hex encoding of a byte list (the Rust `hex::encode`). -/
def hexEncode (bytes : List Nat) : String :=
  String.mk (bytes.flatMap (fun b => [hexDigit (b / 16), hexDigit (b % 16)]))

/-- ASCII upper-casing of one character (Rust `to_ascii_uppercase`). -/
def asciiUpperChar (c : Char) : Char :=
  if 97 ≤ c.toNat ∧ c.toNat ≤ 122 then Char.ofNat (c.toNat - 32) else c

/-- ASCII upper-casing of a string (Rust `str::to_ascii_uppercase`). -/
def asciiUpper (s : String) : String :=
  String.mk (s.data.map asciiUpperChar)

/-! ## MD5 (the `md5` crate's digest, RFC 1321) -/

/-- 32-bit left rotation. -/
def rotl32 (x s : Nat) : Nat :=
  (((x <<< s) % 4294967296) ||| (x >>> (32 - s)))

/-- The 64 MD5 sine-derived constants. -/
def md5K : List Nat :=
  [0xd76aa478, 0xe8c7b756, 0x242070db, 0xc1bdceee,
   0xf57c0faf, 0x4787c62a, 0xa8304613, 0xfd469501,
   0x698098d8, 0x8b44f7af, 0xffff5bb1, 0x895cd7be,
   0x6b901122, 0xfd987193, 0xa679438e, 0x49b40821,
   0xf61e2562, 0xc040b340, 0x265e5a51, 0xe9b6c7aa,
   0xd62f105d, 0x02441453, 0xd8a1e681, 0xe7d3fbc8,
   0x21e1cde6, 0xc33707d6, 0xf4d50d87, 0x455a14ed,
   0xa9e3e905, 0xfcefa3f8, 0x676f02d9, 0x8d2a4c8a,
   0xfffa3942, 0x8771f681, 0x6d9d6122, 0xfde5380c,
   0xa4beea44, 0x4bdecfa9, 0xf6bb4b60, 0xbebfbc70,
   0x289b7ec6, 0xeaa127fa, 0xd4ef3085, 0x04881d05,
   0xd9d4d039, 0xe6db99e5, 0x1fa27cf8, 0xc4ac5665,
   0xf4292244, 0x432aff97, 0xab9423a7, 0xfc93a039,
   0x655b59c3, 0x8f0ccc92, 0xffeff47d, 0x85845dd1,
   0x6fa87e4f, 0xfe2ce6e0, 0xa3014314, 0x4e0811a1,
   0xf7537e82, 0xbd3af235, 0x2ad7d2bb, 0xeb86d391]

/-- The 64 per-round rotation amounts. -/
def md5S : List Nat :=
  [7, 12, 17, 22, 7, 12, 17, 22, 7, 12, 17, 22, 7, 12, 17, 22,
   5,  9, 14, 20, 5,  9, 14, 20, 5,  9, 14, 20, 5,  9, 14, 20,
   4, 11, 16, 23, 4, 11, 16, 23, 4, 11, 16, 23, 4, 11, 16, 23,
   6, 10, 15, 21, 6, 10, 15, 21, 6, 10, 15, 21, 6, 10, 15, 21]

/-- MD5 padding: append 0x80, zero bytes to 56 mod 64, then the 64-bit
little-endian bit length. -/
def md5Pad (msg : List Nat) : List Nat :=
  let L := msg.length
  let z := (120 - (L + 1) % 64) % 64
  msg ++ [128] ++ List.replicate z 0
      ++ (List.range 8).map (fun i => ((L * 8) >>> (8 * i)) % 256)

/-- Split a byte list into 64-byte blocks (the length is a multiple of 64
after padding). -/
def md5ChunksAux : Nat → List Nat → List (List Nat)
  | 0, _ => []
  | n + 1, l => l.take 64 :: md5ChunksAux n (l.drop 64)

def md5Chunks (l : List Nat) : List (List Nat) :=
  md5ChunksAux (l.length / 64) l

/-- The 16 little-endian 32-bit words of one 64-byte block. -/
def md5Words (block : List Nat) : List Nat :=
  (List.range 16).map (fun j =>
    block.getD (4 * j) 0 + 256 * block.getD (4 * j + 1) 0
      + 65536 * block.getD (4 * j + 2) 0 + 16777216 * block.getD (4 * j + 3) 0)

/-- One of the 64 MD5 steps. -/
def md5Step (m : List Nat) (st : Nat × Nat × Nat × Nat) (i : Nat) :
    Nat × Nat × Nat × Nat :=
  let (a, b, c, d) := st
  let (f, g) :=
    if i < 16 then ((b &&& c) ||| ((4294967295 ^^^ b) &&& d), i)
    else if i < 32 then ((d &&& b) ||| ((4294967295 ^^^ d) &&& c), (5 * i + 1) % 16)
    else if i < 48 then (b ^^^ c ^^^ d, (3 * i + 5) % 16)
    else (c ^^^ (b ||| (4294967295 ^^^ d)), (7 * i) % 16)
  let f' := (f + a + md5K.getD i 0 + m.getD g 0) % 4294967296
  (d, (b + rotl32 f' (md5S.getD i 0)) % 4294967296, b, c)

/-- Process one 64-byte block into the running state. -/
def md5Block (st : Nat × Nat × Nat × Nat) (block : List Nat) :
    Nat × Nat × Nat × Nat :=
  let m := md5Words block
  let (a0, b0, c0, d0) := st
  let (a, b, c, d) := (List.range 64).foldl (md5Step m) (a0, b0, c0, d0)
  ((a0 + a) % 4294967296, (b0 + b) % 4294967296,
   (c0 + c) % 4294967296, (d0 + d) % 4294967296)

/-- Little-endian bytes of a 32-bit word. -/
def le4 (w : Nat) : List Nat :=
  [w % 256, (w >>> 8) % 256, (w >>> 16) % 256, (w >>> 24) % 256]

/-- The 16-byte MD5 digest of a byte list. -/
def md5 (msg : List Nat) : List Nat :=
  let (a, b, c, d) := (md5Chunks (md5Pad msg)).foldl md5Block
    (0x67452301, 0xefcdab89, 0x98badcfe, 0x10325476)
  le4 a ++ le4 b ++ le4 c ++ le4 d

/-! ## Request signing (`Verifier::get_sign_hash`) -/

/-- A `BTreeMap<&str, String>`: an association list sorted by key with
unique keys.  `btreeInsert` models `BTreeMap::insert` (keeps the list
sorted, overwrites an existing key). -/
def btreeInsert (k v : String) : List (String × String) → List (String × String)
  | [] => [(k, v)]
  | (k', v') :: rest =>
    if k.data < k'.data then (k, v) :: (k', v') :: rest
    else if k = k' then (k, v) :: rest
    else (k', v') :: btreeInsert k v rest

/-- The canonical string hashed by `get_sign_hash`: each `key=value` pair
in the map's (sorted) order, then the literal pair `app_key=<secret>`,
joined with `&`. -/
def canonicalString (appKey : String) (params : List (String × String)) : String :=
  String.intercalate "&"
    (params.map (fun p => p.1 ++ "=" ++ p.2) ++ ["app_key" ++ "=" ++ appKey])

/-- `Verifier::get_sign_hash`: uppercase hex MD5 of the canonical string's
UTF-8 bytes. -/
def get_sign_hash (appKey : String) (params : List (String × String)) : String :=
  asciiUpper (hexEncode (md5 (strBytes (canonicalString appKey params))))

/-! ## Percent-escaping of the base64 payload (`Verifier::verify`) -/

/-- Rust `str::replace` for a single-character pattern: every occurrence
of `c` is replaced by `r`. -/
def replaceChar (c : Char) (r : List Char) (s : List Char) : List Char :=
  s.flatMap (fun x => if x = c then r else [x])

/-- The three sequential replaces of `verify`:
`.replace("=", "%3D").replace("+", "%2B").replace("/", "%2F")`. -/
def percentEscapeL (s : List Char) : List Char :=
  replaceChar '/' ['%', '2', 'F']
    (replaceChar '+' ['%', '2', 'B']
      (replaceChar '=' ['%', '3', 'D'] s))

def percentEscape (s : String) : String :=
  String.mk (percentEscapeL s.data)

/-- Decoding of the three escape sequences `%3D`, `%2B`, `%2F` back to
`=`, `+`, `/`; the inverse direction of the spec's round-trip property. -/
def percentDecodeL : List Char → List Char
  | [] => []
  | [x] => [x]
  | [x, y] => [x, y]
  | x :: y :: z :: rest =>
    if x = '%' ∧ y = '3' ∧ z = 'D' then '=' :: percentDecodeL rest
    else if x = '%' ∧ y = '2' ∧ z = 'B' then '+' :: percentDecodeL rest
    else if x = '%' ∧ y = '2' ∧ z = 'F' then '/' :: percentDecodeL rest
    else x :: percentDecodeL (y :: z :: rest)

def percentDecode (s : String) : String :=
  String.mk (percentDecodeL s.data)

/-- The base64 alphabet (output characters of Rust `base64::encode`). -/
def isBase64Char (c : Char) : Prop :=
  ('A' ≤ c ∧ c ≤ 'Z') ∨ ('a' ≤ c ∧ c ≤ 'z') ∨ ('0' ≤ c ∧ c ≤ '9') ∨
    c = '+' ∨ c = '/' ∨ c = '='

instance (c : Char) : Decidable (isBase64Char c) := by
  unfold isBase64Char; infer_instance

/-! ## Parameter set and request form (`Verifier::verify`) -/

/-- The form POSTed to the OCR endpoint (struct `RequestForm`). -/
structure RequestForm where
  app_id : String
  time_stamp : String
  nonce_str : String
  image : String
  sign : String
  deriving DecidableEq

/-- The `BTreeMap` built in `verify` before signing: inserts `app_id`,
`time_stamp`, `nonce_str` and the percent-escaped base64 image, in that
order. -/
def verifyParams (appId timeStamp nonce base64Image : String) :
    List (String × String) :=
  btreeInsert "image" (percentEscape base64Image)
    (btreeInsert "nonce_str" nonce
      (btreeInsert "time_stamp" timeStamp
        (btreeInsert "app_id" appId [])))

/-- Association-list lookup (the value `BTreeMap::remove` returns). -/
def paramLookup (k : String) : List (String × String) → Option String
  | [] => none
  | (k', v) :: rest => if k = k' then some v else paramLookup k rest

/-- The `RequestForm` constructed in `verify`: the `app_id`, `time_stamp`
and `nonce_str` fields are removed from the params map, the `image` field
is the raw `base64_image` (not the percent-escaped map entry), and `sign`
is `get_sign_hash` over the map. -/
def verifyForm (appKey appId timeStamp nonce base64Image : String) :
    RequestForm :=
  let params := verifyParams appId timeStamp nonce base64Image
  { app_id := (paramLookup "app_id" params).getD ""
    time_stamp := (paramLookup "time_stamp" params).getD ""
    nonce_str := (paramLookup "nonce_str" params).getD ""
    image := base64Image
    sign := get_sign_hash appKey params }

/-! ## OCR response validation (`Verifier::verify`, lines 168–199) -/

structure OcrItem where
  item : String
  itemstring : String
  deriving DecidableEq

structure ResponseData where
  angle : String
  item_list : List OcrItem
  deriving DecidableEq

structure ResponseParams where
  ret : Nat
  msg : String
  data : ResponseData
  deriving DecidableEq

instance {ε α : Type} [DecidableEq ε] [DecidableEq α] : DecidableEq (Except ε α)
  | .ok a, .ok b =>
    if h : a = b then .isTrue (by rw [h])
    else .isFalse (fun hh => h (by cases hh; rfl))
  | .ok _, .error _ => .isFalse (fun h => Except.noConfusion h)
  | .error _, .ok _ => .isFalse (fun h => Except.noConfusion h)
  | .error e, .error f =>
    if h : e = f then .isTrue (by rw [h])
    else .isFalse (fun hh => h (by cases hh; rfl))

/-- The error taxonomy (enum `VerifierError`).  Payloads of the image and
transport variants are external-library error values, elided here. -/
inductive VerifierError where
  | StudentIdNotMatch
  | InstituteNotMatch
  | ImageDataError
  | JpegEncodeError
  | ApiServerConnectionError
  | ServerResponseError (msg : String)
  | ApiServerError (msg : String)
  deriving DecidableEq

/-- The response-validation tail of `verify`: nonzero `ret` fails with
`ServerResponseError(msg)`; otherwise the item loop sets the two match
flags (`id_match` starts true iff no student id was claimed) and the
decision is institute first, then id. -/
def validateOcr (ocr : ResponseParams) (institute : String)
    (sid : Option String) : Except VerifierError Unit :=
  if ocr.ret ≠ 0 then
    .error (.ServerResponseError ocr.msg)
  else
    let flags := ocr.data.item_list.foldl
      (fun (acc : Bool × Bool) item =>
        ((acc.1 || (item.itemstring == institute)),
         (acc.2 || (sid.isSome && (some item.itemstring == sid)))))
      (false, sid.isNone)
    if !flags.1 then .error .InstituteNotMatch
    else if !flags.2 then .error .StudentIdNotMatch
    else .ok ()

/-! ## HTTP response handling (`Verifier::api_request`) -/

/-- One UTF-8 decoding step at byte `b` with lookahead `rest`: the decoded
character (U+FFFD on an invalid sequence) and how many lookahead bytes the
sequence consumed beyond `b` (the maximal-subpart policy: on error, only
the valid prefix of the sequence is skipped). -/
def utf8Step (b : Nat) (rest : List Nat) : Char × Nat :=
  if b < 0x80 then (Char.ofNat b, 0)
  else if 0xC2 ≤ b ∧ b ≤ 0xDF then
    match rest with
    | b1 :: _ =>
      if 0x80 ≤ b1 ∧ b1 ≤ 0xBF then
        (Char.ofNat ((b - 0xC0) * 64 + (b1 - 0x80)), 1)
      else ('�', 0)
    | [] => ('�', 0)
  else if 0xE0 ≤ b ∧ b ≤ 0xEF then
    match rest with
    | b1 :: b2 :: _ =>
      if (0x80 ≤ b1 ∧ b1 ≤ 0xBF) ∧
          (b = 0xE0 → 0xA0 ≤ b1) ∧ (b = 0xED → b1 ≤ 0x9F) then
        if 0x80 ≤ b2 ∧ b2 ≤ 0xBF then
          (Char.ofNat ((b - 0xE0) * 4096 + (b1 - 0x80) * 64 + (b2 - 0x80)), 2)
        else ('�', 1)
      else ('�', 0)
    | [b1] =>
      if (0x80 ≤ b1 ∧ b1 ≤ 0xBF) ∧
          (b = 0xE0 → 0xA0 ≤ b1) ∧ (b = 0xED → b1 ≤ 0x9F) then ('�', 1)
      else ('�', 0)
    | [] => ('�', 0)
  else if 0xF0 ≤ b ∧ b ≤ 0xF4 then
    match rest with
    | b1 :: b2 :: b3 :: _ =>
      if (0x80 ≤ b1 ∧ b1 ≤ 0xBF) ∧
          (b = 0xF0 → 0x90 ≤ b1) ∧ (b = 0xF4 → b1 ≤ 0x8F) then
        if 0x80 ≤ b2 ∧ b2 ≤ 0xBF then
          if 0x80 ≤ b3 ∧ b3 ≤ 0xBF then
            (Char.ofNat ((b - 0xF0) * 262144 + (b1 - 0x80) * 4096
                + (b2 - 0x80) * 64 + (b3 - 0x80)), 3)
          else ('�', 2)
        else ('�', 1)
      else ('�', 0)
    | [b1, b2] =>
      if (0x80 ≤ b1 ∧ b1 ≤ 0xBF) ∧
          (b = 0xF0 → 0x90 ≤ b1) ∧ (b = 0xF4 → b1 ≤ 0x8F) then
        if 0x80 ≤ b2 ∧ b2 ≤ 0xBF then ('�', 2) else ('�', 1)
      else ('�', 0)
    | [b1] =>
      if (0x80 ≤ b1 ∧ b1 ≤ 0xBF) ∧
          (b = 0xF0 → 0x90 ≤ b1) ∧ (b = 0xF4 → b1 ≤ 0x8F) then ('�', 1)
      else ('�', 0)
    | [] => ('�', 0)
  else ('�', 0)

/-- UTF-8 lossy decoding (Rust `String::from_utf8_lossy`): well-formed
sequences decode to their code point; an invalid sequence is replaced by
U+FFFD following the maximal-subpart policy. -/
def utf8Lossy : List Nat → List Char
  | [] => []
  | b :: rest =>
    let (c, k) := utf8Step b rest
    c :: utf8Lossy (rest.drop k)
termination_by l => l.length
decreasing_by simp only [List.length_cons, List.length_drop]; omega

/-- The response-handling closure of `api_request`: only HTTP status 200
(`StatusCode::OK`) is accepted; its body is decoded lossily as UTF-8, an
unreadable body fails with `ServerResponseError`; any other status fails
with `ApiServerError` carrying the status code.  (The `Display` of a
status code also appends the canonical reason phrase; only the numeric
code is modelled.) -/
def api_request_handle (status : Nat) (body : Except String (List Nat)) :
    Except VerifierError String :=
  if status = 200 then
    match body with
    | .ok bytes => .ok (String.mk (utf8Lossy bytes))
    | .error e => .error (.ServerResponseError e)
  else
    .error (.ApiServerError ("Server response code " ++ toString status))

/-- Modelled from the spec: "non-success HTTP status" — the HTTP success
class is 2xx. -/
def httpSuccess (status : Nat) : Prop :=
  200 ≤ status ∧ status < 300

instance (s : Nat) : Decidable (httpSuccess s) := by
  unfold httpSuccess; infer_instance

/-! ## Nonce generation (`Verifier::verify`, lines 130–135) -/

/-- One nonce character: `('a' as u8 + (random::<f32>() * 26.0) as u8) as
char`.  The random draw in `[0,1)` is modelled as a rational `q`; the
`as u8` cast of the non-negative product truncates, i.e. takes the floor. -/
def nonceChar (q : ℚ) : Char :=
  Char.ofNat (97 + ⌊q * 26⌋.toNat)

/-- The nonce string: `(0..30).map(|_| …).collect()`, one independent
draw per position. -/
def genNonce (draw : Nat → ℚ) : List Char :=
  (List.range 30).map (fun i => nonceChar (draw i))

/-! ## Helper lemmas -/

/-- The map built in `verify` in insertion order `app_id`, `time_stamp`,
`nonce_str`, `image` ends up sorted by key. -/
theorem verifyParams_eq (a t n b : String) :
    verifyParams a t n b =
      [("app_id", a), ("image", percentEscape b),
       ("nonce_str", n), ("time_stamp", t)] := rfl

/-- A fold that only ORs into each component computes `any` componentwise. -/
theorem foldl_or_pair (l : List OcrItem) (p q : OcrItem → Bool) (a b : Bool) :
    l.foldl (fun (acc : Bool × Bool) it => (acc.1 || p it, acc.2 || q it)) (a, b)
      = (a || l.any p, b || l.any q) := by
  induction l generalizing a b with
  | nil => simp
  | cons x xs ih => simp [List.foldl_cons, ih, Bool.or_assoc]

/-! ## C1 -/

set_option maxRecDepth 200000 in
/-- C1: the signature produced by `get_sign_hash` is the uppercase hex MD5
digest of the canonical string (sorted `key=value` pairs, then the literal
pair `app_key=<secret>`, joined with `&`); on the ParameterSet
{app_id:"1000001", time_stamp:"1000", nonce_str:"abc", image:"img"} with
secret key "key123" the canonical string is
`app_id=1000001&image=img&nonce_str=abc&time_stamp=1000&app_key=key123`
and the signature is its uppercase hex MD5,
`4EED8FD2E14AFC74AB452A443C968801`. -/
theorem sign_hash_canonical_md5 :
    (∀ appKey params, get_sign_hash appKey params
        = asciiUpper (hexEncode (md5 (strBytes (canonicalString appKey params))))) ∧
    canonicalString "key123"
        (btreeInsert "image" "img" (btreeInsert "nonce_str" "abc"
          (btreeInsert "time_stamp" "1000" (btreeInsert "app_id" "1000001" []))))
      = "app_id=1000001&image=img&nonce_str=abc&time_stamp=1000&app_key=key123" ∧
    get_sign_hash "key123"
        (btreeInsert "image" "img" (btreeInsert "nonce_str" "abc"
          (btreeInsert "time_stamp" "1000" (btreeInsert "app_id" "1000001" []))))
      = "4EED8FD2E14AFC74AB452A443C968801" :=
  ⟨fun _ _ => rfl, by decide, by decide⟩

/-! ## C2 -/

/-- C2 counterexample: with base64 payload "aGk=" the form's `image` field
is the raw base64 string, not the percent-encoded string that was placed
in the ParameterSet (the signed map entry is "aGk%3D"). -/
theorem form_image_not_escaped_cex :
    (verifyForm "key123" "1000001" "1000" "abc" "aGk=").image
        ≠ percentEscape "aGk=" ∧
    paramLookup "image" (verifyParams "1000001" "1000" "abc" "aGk=")
        = some (percentEscape "aGk=") := by
  decide

/-- C2 amended: the form's `image` field is the raw (unescaped) base64
payload, while the ParameterSet over which the signature was computed
holds the percent-encoded version; the two differ whenever the base64
text contains `=`, `+` or `/`. -/
theorem form_image_raw_base64 (appKey appId timeStamp nonce b64 : String) :
    (verifyForm appKey appId timeStamp nonce b64).image = b64 ∧
    paramLookup "image" (verifyParams appId timeStamp nonce b64)
        = some (percentEscape b64) :=
  ⟨rfl, rfl⟩

/-! ## C8 -/

/-- C8: at signing time the ParameterSet holds exactly the four keys
`app_id`, `image`, `nonce_str`, `time_stamp`; the secret key enters only
as the final `app_key=<secret>` pair of the canonical string inside the
signature computation; every transmitted form field except `sign` is
independent of the secret key, and `sign` is exactly the
`get_sign_hash` digest. -/
theorem params_keys_and_secret_confinement :
    (∀ a t n b, (verifyParams a t n b).map Prod.fst
        = ["app_id", "image", "nonce_str", "time_stamp"]) ∧
    (∀ appKey params, canonicalString appKey params
        = String.intercalate "&"
            (params.map (fun p => p.1 ++ "=" ++ p.2) ++ ["app_key=" ++ appKey])) ∧
    (∀ k₁ k₂ a t n b,
        (verifyForm k₁ a t n b).app_id = (verifyForm k₂ a t n b).app_id ∧
        (verifyForm k₁ a t n b).time_stamp = (verifyForm k₂ a t n b).time_stamp ∧
        (verifyForm k₁ a t n b).nonce_str = (verifyForm k₂ a t n b).nonce_str ∧
        (verifyForm k₁ a t n b).image = (verifyForm k₂ a t n b).image) ∧
    (∀ appKey a t n b, (verifyForm appKey a t n b).sign
        = get_sign_hash appKey (verifyParams a t n b)) :=
  ⟨fun _ _ _ _ => rfl, fun _ _ => rfl,
   fun _ _ _ _ _ _ => ⟨rfl, rfl, rfl, rfl⟩, fun _ _ _ _ _ => rfl⟩

/-! ## C3, C4, C6: response validation -/

/-- C3: with status code zero, matching is exact string equality on each
item's raw string: if no item equals the claimed institute the call fails
with `InstituteNotMatch`; otherwise, if a member id was claimed and no
item equals it, it fails with `StudentIdNotMatch`; otherwise it
succeeds. -/
theorem validate_ocr_matching (ocr : ResponseParams) (institute : String)
    (sid : Option String) (h : ocr.ret = 0) :
    validateOcr ocr institute sid =
      if ∃ it ∈ ocr.data.item_list, it.itemstring = institute then
        (match sid with
         | some id =>
           if ∃ it ∈ ocr.data.item_list, it.itemstring = id then .ok ()
           else .error .StudentIdNotMatch
         | none => .ok ())
      else .error .InstituteNotMatch := by
  have keyI : ∀ s : String,
      ((ocr.data.item_list.any fun it => it.itemstring == s) = true) ↔
        (∃ it ∈ ocr.data.item_list, it.itemstring = s) := fun s => by
    simp [List.any_eq_true]
  unfold validateOcr
  rw [if_neg (by simp [h]), foldl_or_pair]
  cases sid with
  | none =>
    by_cases hI : ∃ it ∈ ocr.data.item_list, it.itemstring = institute
    · have hb := (keyI institute).mpr hI
      simp [hb, hI]
    · have hb : ¬ ((ocr.data.item_list.any
          fun it => it.itemstring == institute) = true) := by
        rw [keyI]; exact hI
      simp [hb, hI]
  | some id =>
    have keyJ : ((ocr.data.item_list.any
          fun it => (some id).isSome && (some it.itemstring == some id)) = true) ↔
        (∃ it ∈ ocr.data.item_list, it.itemstring = id) := by
      simp [List.any_eq_true]
    by_cases hI : ∃ it ∈ ocr.data.item_list, it.itemstring = institute
    · by_cases hJ : ∃ it ∈ ocr.data.item_list, it.itemstring = id
      · have hbI := (keyI institute).mpr hI
        have hbJ := keyJ.mpr hJ
        simp [hbI, hbJ, hI, hJ]
      · have hbI := (keyI institute).mpr hI
        have hbJ : ¬ ((ocr.data.item_list.any
            fun it => (some id).isSome && (some it.itemstring == some id)) = true) := by
          rw [keyJ]; exact hJ
        simp [hbI, hbJ, hI, hJ]
    · have hbI : ¬ ((ocr.data.item_list.any
          fun it => it.itemstring == institute) = true) := by
        rw [keyI]; exact hI
      simp [hbI, hI]

/-- C3 witness: spec Scenario B — one item "Example University", claimed
institute "Example University", no member id → success. -/
theorem validate_ocr_matching_witness :
    validateOcr ⟨0, "ok", ⟨"0", [⟨"x", "Example University"⟩]⟩⟩
        "Example University" none = .ok () :=
  (validate_ocr_matching _ _ none rfl).trans (by decide)

/-- C4: a parsed response with nonzero `ret` fails with
`ServerResponseError` carrying exactly the response's `msg`, before any
text matching. -/
theorem validate_ocr_nonzero_ret (ocr : ResponseParams) (institute : String)
    (sid : Option String) (h : ocr.ret ≠ 0) :
    validateOcr ocr institute sid = .error (.ServerResponseError ocr.msg) := by
  unfold validateOcr
  rw [if_pos h]

/-- C4 witness: spec Scenario D — `ret` 1001, `msg` "quota exceeded"
fails with `ServerResponseError "quota exceeded"`. -/
theorem validate_ocr_nonzero_ret_witness :
    (1001 ≠ 0) ∧
    validateOcr ⟨1001, "quota exceeded", ⟨"0", []⟩⟩ "x" none =
      .error (.ServerResponseError "quota exceeded") :=
  ⟨by decide, validate_ocr_nonzero_ret _ _ _ (by decide)⟩

/-- C6: when no member id is claimed, validation never fails with
`StudentIdNotMatch`, whatever the response contains. -/
theorem no_sid_never_student_mismatch (ocr : ResponseParams) (institute : String) :
    validateOcr ocr institute none ≠ .error .StudentIdNotMatch := by
  unfold validateOcr
  by_cases h : ocr.ret ≠ 0
  · simp [h]
  · rw [if_neg h, foldl_or_pair]
    simp
    split <;> simp

/-! ## C9: percent-escaping round trip -/

theorem percentEscapeL_eq_cons (s : List Char) :
    percentEscapeL ('=' :: s) = '%' :: '3' :: 'D' :: percentEscapeL s := by
  simp [percentEscapeL, replaceChar]

theorem percentEscapeL_plus_cons (s : List Char) :
    percentEscapeL ('+' :: s) = '%' :: '2' :: 'B' :: percentEscapeL s := by
  simp [percentEscapeL, replaceChar]

theorem percentEscapeL_slash_cons (s : List Char) :
    percentEscapeL ('/' :: s) = '%' :: '2' :: 'F' :: percentEscapeL s := by
  simp [percentEscapeL, replaceChar]

theorem percentEscapeL_other_cons (x : Char) (s : List Char)
    (h1 : x ≠ '=') (h2 : x ≠ '+') (h3 : x ≠ '/') :
    percentEscapeL (x :: s) = x :: percentEscapeL s := by
  simp [percentEscapeL, replaceChar, h1, h2, h3]

theorem percentDecodeL_cons_ne (x : Char) (l : List Char) (hx : x ≠ '%') :
    percentDecodeL (x :: l) = x :: percentDecodeL l := by
  match l with
  | [] => simp [percentDecodeL]
  | [y] => simp [percentDecodeL]
  | y :: z :: rest => simp [percentDecodeL, hx]

theorem percentDecodeL_3D (l : List Char) :
    percentDecodeL ('%' :: '3' :: 'D' :: l) = '=' :: percentDecodeL l := by
  simp [percentDecodeL]

theorem percentDecodeL_2B (l : List Char) :
    percentDecodeL ('%' :: '2' :: 'B' :: l) = '+' :: percentDecodeL l := by
  simp [percentDecodeL]

theorem percentDecodeL_2F (l : List Char) :
    percentDecodeL ('%' :: '2' :: 'F' :: l) = '/' :: percentDecodeL l := by
  simp [percentDecodeL]

theorem percent_round_trip_list (s : List Char) (h : ∀ c ∈ s, isBase64Char c) :
    percentDecodeL (percentEscapeL s) = s := by
  induction s with
  | nil => rfl
  | cons x xs ih =>
    have hx : isBase64Char x := h x (List.mem_cons_self x xs)
    have hxs : ∀ c ∈ xs, isBase64Char c := fun c hc => h c (List.mem_cons_of_mem _ hc)
    by_cases h1 : x = '='
    · subst h1
      rw [percentEscapeL_eq_cons, percentDecodeL_3D, ih hxs]
    · by_cases h2 : x = '+'
      · subst h2
        rw [percentEscapeL_plus_cons, percentDecodeL_2B, ih hxs]
      · by_cases h3 : x = '/'
        · subst h3
          rw [percentEscapeL_slash_cons, percentDecodeL_2F, ih hxs]
        · have hp : x ≠ '%' := by
            intro he; subst he; revert hx; decide
          rw [percentEscapeL_other_cons x xs h1 h2 h3,
            percentDecodeL_cons_ne _ _ hp, ih hxs]

/-- C9: percent-escaping `=`, `+`, `/` and then decoding those escape
sequences recovers the original base64 text exactly. -/
theorem percent_escape_round_trip (s : String)
    (h : ∀ c ∈ s.data, isBase64Char c) :
    percentDecode (percentEscape s) = s := by
  cases s with
  | mk data =>
    show String.mk (percentDecodeL (percentEscapeL data)) = String.mk data
    rw [percent_round_trip_list data h]

/-- C9 witness: round trip on the base64 text "ab+/9Z==". -/
theorem percent_escape_round_trip_witness :
    (∀ c ∈ ("ab+/9Z==" : String).data, isBase64Char c) ∧
    percentDecode (percentEscape "ab+/9Z==") = "ab+/9Z==" :=
  ⟨by decide, percent_escape_round_trip _ (by decide)⟩

/-! ## C7: HTTP response handling -/

/-- C7 counterexample: HTTP 201 is a success status, yet the code fails
with `ApiServerError` — only status 200 is accepted. -/
theorem api_handle_success_status_cex :
    httpSuccess 201 ∧
    api_request_handle 201 (.ok []) =
      .error (.ApiServerError "Server response code 201") := by
  decide

/-- C7 amended: the call fails with `ApiServerError` iff the HTTP status
differs from 200 (not: iff the status is non-success); on status 200 a
readable body is returned decoded as lossy UTF-8 and an unreadable body
fails with `ServerResponseError`. -/
theorem api_handle_status (status : Nat) (body : Except String (List Nat)) :
    ((∃ m, api_request_handle status body = .error (.ApiServerError m)) ↔
        status ≠ 200) ∧
    (status = 200 →
      (∀ bs, body = .ok bs →
        api_request_handle status body = .ok (String.mk (utf8Lossy bs))) ∧
      (∀ e, body = .error e →
        api_request_handle status body = .error (.ServerResponseError e))) := by
  constructor
  · constructor
    · rintro ⟨m, hm⟩ h200
      subst h200
      unfold api_request_handle at hm
      rw [if_pos rfl] at hm
      cases body <;> simp at hm
    · intro hne
      exact ⟨_, by unfold api_request_handle; rw [if_neg hne]⟩
  · rintro rfl
    constructor
    · rintro bs rfl
      unfold api_request_handle
      rw [if_pos rfl]
    · rintro e rfl
      unfold api_request_handle
      rw [if_pos rfl]

/-- C7 witness: status 200 with readable body "hi" returns the decoded
body. -/
theorem api_handle_status_witness :
    (200 = 200) ∧
    api_request_handle 200 (.ok [104, 105]) =
      .ok (String.mk (utf8Lossy [104, 105])) :=
  ⟨rfl, ((api_handle_status 200 (.ok [104, 105])).2 rfl).1 [104, 105] rfl⟩

/-! ## C10: nonce generation -/

/-- C10: for draws in `[0,1)` the generated nonce has exactly 30
characters, all ASCII lowercase letters between 'a' and 'z'. -/
theorem nonce_length_and_alphabet (draw : Nat → ℚ)
    (h : ∀ i, 0 ≤ draw i ∧ draw i < 1) :
    (genNonce draw).length = 30 ∧ ∀ c ∈ genNonce draw, 'a' ≤ c ∧ c ≤ 'z' := by
  refine ⟨by simp [genNonce], ?_⟩
  intro c hc
  simp only [genNonce, List.mem_map, List.mem_range] at hc
  obtain ⟨i, hi, rfl⟩ := hc
  obtain ⟨h0, h1⟩ := h i
  have hdle : (⌊(draw i) * 26⌋).toNat ≤ 25 := by
    have hfl : ⌊(draw i) * 26⌋ < (26 : ℤ) := by
      rw [Int.floor_lt]
      push_cast
      nlinarith
    omega
  simp only [nonceChar]
  generalize hg : (⌊(draw i) * 26⌋).toNat = d at hdle ⊢
  interval_cases d <;> decide

/-- C10 witness: the all-zero draw yields a 30-character lowercase
nonce. -/
theorem nonce_length_and_alphabet_witness :
    (∀ _ : Nat, (0:ℚ) ≤ 0 ∧ (0:ℚ) < 1) ∧
    ((genNonce fun _ => (0:ℚ)).length = 30 ∧
      ∀ c ∈ genNonce (fun _ => (0:ℚ)), 'a' ≤ c ∧ c ≤ 'z') :=
  ⟨fun _ => ⟨le_refl 0, by norm_num⟩,
   nonce_length_and_alphabet (fun _ => 0) (fun _ => ⟨le_refl 0, by norm_num⟩)⟩

end EmtmVerify
